import Mathlib

/-!
Shallow embedding of the MaritimeHackathon emissions pipeline.

The repository consists of three Python batch jobs over tabular (pandas)
data:
  * Job A (`anc_before_jit.py`): loads a precomputed before-JIT emissions
    table, sorts and reports it, buckets values into ranges.
  * Job B (`anc_after_jit.py`): derives per-record activity durations from
    timestamps, joins fuel-category emission factors, computes per-record
    emissions with a 3-hour JIT duration cap, and aggregates per vessel
    (IMO).
  * Job C (`anc_savings_after_jit.py`): outer-joins the before- and
    after-JIT per-vessel aggregates, zero-fills missing sides, and computes
    savings = before - after.

Numeric columns are modelled with `ℚ` (exact arithmetic standing in for the
scripts' float arithmetic); missing values (NaN/NaT) are modelled with
`Option`.  Tables are lists of records; pandas joins, group-bys and sorts
are modelled explicitly below, following the source line by line.
-/

namespace Hackathon

/-- One AIS observation row of `ais_dataset.csv` after
`preprocess_data`'s `pd.to_datetime(..., errors='coerce')`: `timestamp` is
the parsed time in seconds (`none` = NaT, i.e. absent or invalid), `ael`
and `abl` are the auxiliary-engine and boiler loads (`none` = NaN),
`fuel_category` the join key for the emission-factor tables. -/
structure AisRecord where
  imo : String
  timestamp : Option ℚ
  ael : Option ℚ
  abl : Option ℚ
  fuel_category : String
deriving DecidableEq, Repr

/-- Ordering on timestamps used by `df.sort_values(['imo', 'timestamp'])`:
NaT sorts last (pandas `na_position='last'`). -/
def tsLe : Option ℚ → Option ℚ → Bool
  | some a, some b => decide (a ≤ b)
  | some _, none => true
  | none, some _ => false
  | none, none => true

/-- Row ordering of `df.sort_values(['imo', 'timestamp'])`: by IMO, then by
timestamp with NaT last. -/
def rowLe (a b : AisRecord) : Bool :=
  if a.imo = b.imo then tsLe a.timestamp b.timestamp
  else decide (a.imo < b.imo)

/-- Model of `df.sort_values(['imo', 'timestamp'])`. -/
def sortRows (l : List AisRecord) : List AisRecord :=
  l.mergeSort rowLe

/-- Model of `df.groupby('imo')['timestamp'].diff().dt.total_seconds() / 3600` for
one row, given the previous row of the sorted table: defined (`some`) only
when the previous row exists, belongs to the same IMO group, and both
timestamps are valid; otherwise NaN (`none`). -/
def rawDiff (prev cur : AisRecord) : Option ℚ :=
  if prev.imo = cur.imo then
    match prev.timestamp, cur.timestamp with
    | some t0, some t1 => some ((t1 - t0) / 3600)
    | _, _ => none
  else none

/-- Model of `df.loc[df['activity_duration_hours'] > 24, ...] = 24`: cap
unreasonable durations at 24 hours. -/
def cap24 (d : ℚ) : ℚ :=
  if d > 24 then 24 else d

/-- Duration of one row in the sorted table: the group-wise timestamp diff
in hours, `fillna(1)` (first entry of each IMO and any missing diff), then
capped at 24 hours. -/
def durationOf (prev : Option AisRecord) (cur : AisRecord) : ℚ :=
  cap24 ((match prev with
    | none => none
    | some p => rawDiff p cur).getD 1)

/-- Walk the sorted table pairing each row with its duration (each row's
predecessor is the row just before it in the sorted order). -/
def assignDurations : Option AisRecord → List AisRecord → List (AisRecord × ℚ)
  | _, [] => []
  | prev, r :: rs => (r, durationOf prev r) :: assignDurations (some r) rs

/-- The AIS dataframe handed to `calculate_duration`: its rows plus the
schema facts the function's behaviour depends on — whether a `timestamp`
column exists, and whether that column carries datetime values (the `.dt`
accessor raises `AttributeError` on a non-datetimelike column). -/
structure AisTable where
  hasTimestampColumn : Bool
  timestampIsDatetime : Bool
  rows : List AisRecord
deriving Repr

/-- The body of `calculate_duration`'s `try` block: if a `timestamp`
column is present, sort by IMO and timestamp, take group-wise diffs,
`fillna(1)` and cap at 24; the `.dt` accessor raises when the column is
not datetimelike.  Without a `timestamp` column every duration is 1
(then capped, a no-op). -/
def computeDurationsCore (t : AisTable) : Except String (List (AisRecord × ℚ)) :=
  if t.hasTimestampColumn then
    if t.timestampIsDatetime then
      .ok (assignDurations none (sortRows t.rows))
    else
      .error "Can only use .dt accessor with datetimelike values"
  else
    .ok (t.rows.map (fun r => (r, cap24 1)))

/-- Model of `calculate_duration` (anc_after_jit.py lines 21-45): on any exception
in the try block, print and fall back to a duration of 1 hour for every
record, returning the table rather than propagating the error. -/
def calculate_duration (t : AisTable) : List (AisRecord × ℚ) :=
  match computeDurationsCore t with
  | .ok out => out
  | .error _ => t.rows.map (fun r => (r, 1))

/-- An activity record after `preprocess_data` (duration attached) and
`merge_emission_factors` (left join on `fuel_category`, then
`fillna(0)` on `sfc_ae` / `sfc_ab`).  Load and factor columns stay
`Option`-valued because `calculate_emissions_after_jit` re-checks them
with `notna` masks. -/
structure MergedRecord where
  imo : String
  timestamp : Option ℚ
  activity_duration_hours : ℚ
  ael : Option ℚ
  abl : Option ℚ
  fuel_category : String
  sfc_ae : Option ℚ
  sfc_ab : Option ℚ
deriving DecidableEq, Repr

/-- Model of `data['jit_activity_duration_hours'] = data['activity_duration_hours'].clip(upper=3)`. -/
def jit_activity_duration_hours (r : MergedRecord) : ℚ :=
  min r.activity_duration_hours 3

/-- Auxiliary-engine emissions (grams) of one record: under the mask
`ael.notna() & sfc_ae.notna()`, `ael * jit_duration * sfc_ae * 0.867 *
3.667`; rows outside the mask keep the initialised 0.0. -/
def aux_emissions_after_jit (r : MergedRecord) : ℚ :=
  match r.ael, r.sfc_ae with
  | some a, some s => a * jit_activity_duration_hours r * s * (867 / 1000) * (3667 / 1000)
  | _, _ => 0

/-- Boiler emissions (grams) of one record: under the mask
`abl.notna() & sfc_ab.notna()`, `abl * jit_duration * sfc_ab * 0.867 *
3.667`; rows outside the mask keep the initialised 0.0. -/
def boiler_emissions_after_jit (r : MergedRecord) : ℚ :=
  match r.abl, r.sfc_ab with
  | some b, some s => b * jit_activity_duration_hours r * s * (867 / 1000) * (3667 / 1000)
  | _, _ => 0

/-- Model of `data['total_emissions_grams_after_jit'] = aux + boiler`. -/
def total_emissions_grams_after_jit (r : MergedRecord) : ℚ :=
  aux_emissions_after_jit r + boiler_emissions_after_jit r

/-- Model of `data['total_emissions_tonnes_after_jit'] = grams / 1_000_000`. -/
def total_emissions_tonnes_after_jit (r : MergedRecord) : ℚ :=
  total_emissions_grams_after_jit r / 1000000

/-- Model of `df['imo'].unique()` (preprocess_data's `all_imos`): the distinct
values in first-occurrence order. -/
def uniqueFirst : List String → List String
  | [] => []
  | x :: xs => x :: uniqueFirst (xs.filter (fun y => ¬ y = x))
termination_by l => l.length
decreasing_by
  exact Nat.lt_succ_of_le (List.length_filter_le _ _)

/-- Key ordering for `sort_values('imo')` and for `groupby`'s sorted keys. -/
def strLe (a b : String) : Bool :=
  decide (a ≤ b)

/-- Sort a keyed table by its `imo` key (`sort_values('imo')`). -/
def sortByKey (l : List (String × ℚ)) : List (String × ℚ) :=
  l.mergeSort (fun p q => strLe p.1 q.1)

/-- Model of `data.groupby('imo')['total_emissions_tonnes_after_jit'].sum()`:
one row per distinct IMO of the data (groupby keys, sorted ascending),
holding the sum of that IMO's per-record tonnes. -/
def emissions_by_imo (rows : List MergedRecord) : List (String × ℚ) :=
  ((uniqueFirst (rows.map (·.imo))).mergeSort strLe).map
    (fun i => (i, ((rows.filter (fun r => r.imo = i)).map
      total_emissions_tonnes_after_jit).sum))

/-- Model of `aggregate_and_analyze_emissions` (anc_after_jit.py lines 121-134):
left-join `all_imos` with the group sums, `fillna(0)` on the emission
column, rename it `anc_after_jit`, and sort by IMO. -/
def aggregate_and_analyze_emissions (rows : List MergedRecord)
    (all_imos : List String) : List (String × ℚ) :=
  sortByKey (all_imos.map (fun i =>
    (i, ((emissions_by_imo rows).lookup i).getD 0)))

/-- Job A's transform of the loaded `anc_before_jit.csv` table
(anc_before_jit.py line 13): `emissions_df.sort_values('imo')`; the
emission values themselves are passed through unchanged. -/
def load_and_analyze_data (emissions_df : List (String × ℚ)) : List (String × ℚ) :=
  sortByKey emissions_df

/-- The emission-range bucketing of Jobs A and B:
`pd.cut(x, bins=[0, 0.001, 1, 10, 50, 100, inf], labels=['Zero', '0-1',
'1-10', '10-50', '50-100', '100+'])`.  With pandas' defaults
(`right=True`, `include_lowest=False`) the bins are the left-open
right-closed intervals `(0, 0.001], (0.001, 1], ..., (100, inf)`; a value
on no bin (in particular any value ≤ 0) gets NaN (`none`). -/
def emission_range (v : ℚ) : Option String :=
  if 0 < v ∧ v ≤ 1 / 1000 then some "Zero"
  else if 1 / 1000 < v ∧ v ≤ 1 then some "0-1"
  else if 1 < v ∧ v ≤ 10 then some "1-10"
  else if 10 < v ∧ v ≤ 50 then some "10-50"
  else if 50 < v ∧ v ≤ 100 then some "50-100"
  else if 100 < v then some "100+"
  else none

/-- Job C's savings bucketing:
`pd.cut(x, bins=[-inf, -0.001, 0.001, 1, 10, 50, 100, inf],
labels=['Negative', 'Zero', '0-1', '1-10', '10-50', '50-100', '100+'])`,
right-closed by pandas default: `(-inf, -0.001], (-0.001, 0.001], ...`. -/
def savings_range (v : ℚ) : Option String :=
  if v ≤ -1 / 1000 then some "Negative"
  else if -1 / 1000 < v ∧ v ≤ 1 / 1000 then some "Zero"
  else if 1 / 1000 < v ∧ v ≤ 1 then some "0-1"
  else if 1 < v ∧ v ≤ 10 then some "1-10"
  else if 10 < v ∧ v ≤ 50 then some "10-50"
  else if 50 < v ∧ v ≤ 100 then some "50-100"
  else if 100 < v then some "100+"
  else none

/-- One row of Job C's merged output (`anc_savings_after_jit.csv`). -/
structure SavingsRow where
  imo : String
  anc_before_jit : ℚ
  anc_after_jit : ℚ
  anc_savings_after_jit : ℚ
deriving DecidableEq, Repr

/-- The rows an outer merge produces for one left row `b`: `b` paired
with each matching right row, or with a missing right side when no right
row shares its key. -/
def matchRows (after : List (String × ℚ)) (b : String × ℚ) :
    List (String × Option ℚ × Option ℚ) :=
  if (after.filter (fun a => a.1 = b.1)).isEmpty then [(b.1, some b.2, none)]
  else (after.filter (fun a => a.1 = b.1)).map (fun a => (b.1, some b.2, some a.2))

/-- Model of `pd.merge(before_jit, after_jit, on='imo', how='outer')`: every left
row paired with its matching right rows (or with a missing right side when
unmatched), followed by the unmatched right rows. -/
def outerJoin (before after : List (String × ℚ)) :
    List (String × Option ℚ × Option ℚ) :=
  before.flatMap (matchRows after) ++
  (after.filter (fun a => ¬ before.any (fun b => b.1 = a.1))).map
    (fun a => (a.1, none, some a.2))

/-- Sort Job C's rows by IMO (`merged.sort_values('imo')`). -/
def sortSavings (l : List SavingsRow) : List SavingsRow :=
  l.mergeSort (fun p q => strLe p.imo q.imo)

/-- Model of `calculate_emission_savings` (anc_savings_after_jit.py lines 39-49):
outer-join the two aggregate tables on `imo`, `fillna(0)` both value
columns, set `anc_savings_after_jit = anc_before_jit - anc_after_jit`,
and sort by IMO. -/
def calculate_emission_savings (before after : List (String × ℚ)) :
    List SavingsRow :=
  sortSavings ((outerJoin before after).map (fun j =>
    let b := j.2.1.getD 0
    let a := j.2.2.getD 0
    ⟨j.1, b, a, b - a⟩))

/-- Outcome of executing a script's module-level entry guard. -/
inductive EntryOutcome
  | raisedNameError
  | invokedMain
  | skippedMain
deriving DecidableEq, Repr

/-- A Python module-level name lookup succeeds iff the identifier is bound
in the module's global environment. -/
def lookupGlobal (env : List String) (ident : String) : Bool :=
  env.contains ident

/-- Executing `if <guardIdent> == "__main__": <run main>` at module top
level: looking up an unbound identifier raises NameError before the
comparison happens; otherwise main runs exactly when the module is the
entry script. -/
def runEntryGuard (env : List String) (guardIdent : String)
    (runAsScript : Bool) : EntryOutcome :=
  if lookupGlobal env guardIdent then
    if runAsScript then .invokedMain else .skippedMain
  else .raisedNameError

/-- The module-level bindings of `anc_after_jit.py` in scope at its entry
guard (line 205): the two imports and the six function definitions.
`name` is never assigned. -/
def globals_anc_after_jit : List String :=
  ["pd", "np", "load_data", "calculate_duration", "preprocess_data",
   "merge_emission_factors", "calculate_emissions_after_jit",
   "aggregate_and_analyze_emissions", "main"]

/-- The module-level bindings of `anc_before_jit.py` in scope at its entry
guard (line 98): the two imports and the two function definitions.
`name` is never assigned. -/
def globals_anc_before_jit : List String :=
  ["pd", "np", "load_and_analyze_data", "display_specific_imo_range"]

/-- The identifier compared against "__main__" in the entry guards of
`anc_after_jit.py` (line 205) and `anc_before_jit.py` (line 98): the
bare `name`, not `__name__`. -/
def entryGuardIdent : String :=
  "name"

/-- Non-negativity of a record's duration, loads and emission factors
(wherever present), the premise of the spec's "emissions are always ≥ 0". -/
def nonnegRecord (r : MergedRecord) : Prop :=
  0 ≤ r.activity_duration_hours
  ∧ (∀ a, r.ael = some a → 0 ≤ a)
  ∧ (∀ b, r.abl = some b → 0 ≤ b)
  ∧ (∀ s, r.sfc_ae = some s → 0 ≤ s)
  ∧ (∀ s, r.sfc_ab = some s → 0 ≤ s)

/-- The spec's worked example: `ael=10`, `sfc_ae=2`, a raw duration of 3
hours (so the JIT-capped duration is 3), and no boiler contribution. -/
def exampleRecord : MergedRecord :=
  ⟨"IMO1", none, 3, some 10, some 0, "HFO", some 2, some 0⟩

/-- A table whose `timestamp` column exists but is not datetimelike, so
`calculate_duration`'s try block raises on the `.dt` accessor. -/
def exampleBadTable : AisTable :=
  ⟨true, false, [⟨"A", some 7200, none, none, "HFO"⟩]⟩

/-! ### Helper lemmas -/

theorem cap24_le (d : ℚ) : cap24 d ≤ 24 := by
  unfold cap24
  split_ifs with h
  · exact le_refl 24
  · linarith

theorem cap24_one : cap24 1 = 1 := by
  norm_num [cap24]

theorem durationOf_le (prev : Option AisRecord) (r : AisRecord) :
    durationOf prev r ≤ 24 :=
  cap24_le _

theorem durationOf_none (r : AisRecord) : durationOf none r = 1 := by
  simp [durationOf, cap24_one]

theorem durationOf_ts_none (prev : Option AisRecord) (r : AisRecord)
    (h : r.timestamp = none) : durationOf prev r = 1 := by
  cases prev with
  | none => exact durationOf_none r
  | some p =>
    unfold durationOf rawDiff
    rcases hp : p.timestamp with _ | t0 <;>
      simp [h, hp, cap24_one]

theorem durationOf_new_imo (p r : AisRecord) (h : p.imo ≠ r.imo) :
    durationOf (some p) r = 1 := by
  simp [durationOf, rawDiff, h, cap24_one]

theorem assignDurations_bounds (rows : List AisRecord) :
    ∀ prev : Option AisRecord, ∀ q ∈ assignDurations prev rows,
      q.2 ≤ 24 ∧ (q.1.timestamp = none → q.2 = 1) := by
  induction rows with
  | nil => intro prev q hq; cases hq
  | cons r rs ih =>
    intro prev q hq
    rcases List.mem_cons.1 hq with hq | hq
    · subst hq
      constructor
      · exact durationOf_le prev r
      · intro hts
        exact durationOf_ts_none prev r hts
    · exact ih (some r) q hq

theorem mem_uniqueFirst (i : String) :
    ∀ l : List String, i ∈ uniqueFirst l ↔ i ∈ l := by
  intro l
  induction l using uniqueFirst.induct with
  | case1 => simp [uniqueFirst]
  | case2 x xs ih =>
    rw [uniqueFirst]
    by_cases hx : i = x
    · subst hx; simp
    · simp only [List.mem_cons, ih, List.mem_filter, hx, false_or]
      constructor
      · rintro ⟨h, _⟩; exact h
      · intro h; exact ⟨h, by simp [hx]⟩

theorem nodup_uniqueFirst : ∀ l : List String, (uniqueFirst l).Nodup := by
  intro l
  induction l using uniqueFirst.induct with
  | case1 => simp [uniqueFirst]
  | case2 x xs ih =>
    rw [uniqueFirst]
    refine List.nodup_cons.2 ⟨?_, ih⟩
    intro hx
    have := (mem_uniqueFirst x _).1 hx
    simp at this

theorem lookup_eq_some_mem {β : Type} (i : String) (v : β) :
    ∀ l : List (String × β), l.lookup i = some v → (i, v) ∈ l := by
  intro l
  induction l with
  | nil => intro h; cases h
  | cons p ps ih =>
    intro h
    rw [List.lookup] at h
    cases hb : (i == p.1) with
    | true =>
      simp only [hb] at h
      have hi : i = p.1 := by simpa using hb
      have hv : p.2 = v := Option.some.inj h
      subst hi
      rw [← hv, Prod.mk.eta]
      exact List.mem_cons_self p ps
    | false =>
      simp only [hb] at h
      exact List.mem_cons_of_mem _ (ih h)

theorem lookup_eq_none_of_not_mem {β : Type} (i : String) :
    ∀ l : List (String × β), i ∉ l.map Prod.fst → l.lookup i = none := by
  intro l
  induction l with
  | nil => intro _; rfl
  | cons p ps ih =>
    intro h
    rw [List.lookup]
    have hb : (i == p.1) = false := by
      refine beq_eq_false_iff_ne.2 ?_
      intro e
      exact h (by simp [e])
    simp only [hb]
    exact ih (fun hm => h (by simp [hm]))

/-! ### Claims -/

/-- C1: for every activity record in Job B (loads and factors present, as
`preprocess_data` and `merge_emission_factors` guarantee via `fillna(0)`),
the auxiliary (resp. boiler) emissions in grams equal `ael` (resp. `abl`)
times the JIT-capped duration times `sfc_ae` (resp. `sfc_ab`) times 0.867
times 3.667; the total in grams is their sum, and the total in tonnes is
that sum divided by 1,000,000. -/
theorem C1_per_record_emission_formula (r : MergedRecord) (a b sa sb : ℚ)
    (ha : r.ael = some a) (hb : r.abl = some b)
    (hsa : r.sfc_ae = some sa) (hsb : r.sfc_ab = some sb) :
    aux_emissions_after_jit r
      = a * jit_activity_duration_hours r * sa * (867 / 1000) * (3667 / 1000)
    ∧ boiler_emissions_after_jit r
      = b * jit_activity_duration_hours r * sb * (867 / 1000) * (3667 / 1000)
    ∧ total_emissions_grams_after_jit r
      = aux_emissions_after_jit r + boiler_emissions_after_jit r
    ∧ total_emissions_tonnes_after_jit r
      = total_emissions_grams_after_jit r / 1000000 := by
  refine ⟨?_, ?_, rfl, rfl⟩
  · simp [aux_emissions_after_jit, ha, hsa]
  · simp [boiler_emissions_after_jit, hb, hsb]

/-- Witness for C1 at the spec's example record. -/
theorem C1_per_record_emission_formula_witness :
    aux_emissions_after_jit exampleRecord
      = 10 * jit_activity_duration_hours exampleRecord * 2
          * (867 / 1000) * (3667 / 1000)
    ∧ total_emissions_tonnes_after_jit exampleRecord
      = total_emissions_grams_after_jit exampleRecord / 1000000 := by
  have h := C1_per_record_emission_formula exampleRecord 10 0 2 0 rfl rfl rfl rfl
  exact ⟨h.1, h.2.2.2⟩

/-- C9 counterexample: at `ael = 10`, `sfc_ae = 2`, JIT duration 3 the
auxiliary emissions are exactly 190.75734 grams, which does not lie in
[190.97, 190.98) — the claim's "190.97..." figure is wrong. -/
theorem C9_example_counterexample :
    aux_emissions_after_jit exampleRecord = 9537867 / 50000
    ∧ ¬ (19097 / 100 ≤ aux_emissions_after_jit exampleRecord
          ∧ aux_emissions_after_jit exampleRecord < 19098 / 100) := by
  have h : aux_emissions_after_jit exampleRecord = 9537867 / 50000 := by
    norm_num [aux_emissions_after_jit, jit_activity_duration_hours, exampleRecord]
  refine ⟨h, ?_⟩
  rw [h]
  intro hc
  norm_num at hc

/-- C9 amended: at `ael = 10`, `sfc_ae = 2`, JIT duration 3 the auxiliary
emissions are 10×3×2×0.867×3.667 = 190.75734 grams, and the record
contributes ≈0.00019 tonnes (0.00019075734, within half a unit of the
fifth decimal place of 0.00019). -/
theorem C9_example_amended :
    aux_emissions_after_jit exampleRecord = 9537867 / 50000
    ∧ total_emissions_tonnes_after_jit exampleRecord = 9537867 / 50000000000
    ∧ |total_emissions_tonnes_after_jit exampleRecord - 19 / 100000|
        < 1 / 200000 := by
  have ha : aux_emissions_after_jit exampleRecord = 9537867 / 50000 := by
    norm_num [aux_emissions_after_jit, jit_activity_duration_hours, exampleRecord]
  have hg : total_emissions_tonnes_after_jit exampleRecord
      = 9537867 / 50000000000 := by
    norm_num [aux_emissions_after_jit, boiler_emissions_after_jit,
      total_emissions_tonnes_after_jit, total_emissions_grams_after_jit,
      jit_activity_duration_hours, exampleRecord]
  refine ⟨ha, hg, ?_⟩
  rw [hg, abs_sub_lt_iff]
  constructor <;> norm_num

/-- C5 counterexample: the bucketing of Jobs A and B assigns an emission
value of exactly 0 to no bin at all (`pd.cut`'s bins are left-open), not
to "Zero". -/
theorem C5_zero_bucket_counterexample :
    emission_range 0 = none ∧ emission_range 0 ≠ some "Zero" := by
  have h : emission_range 0 = none := by norm_num [emission_range]
  exact ⟨h, by rw [h]; exact fun hc => Option.noConfusion hc⟩

/-- C5 amended: an emission value of exactly 0 receives no range label
(pandas leaves it NaN, outside every bin); the "Zero" label covers exactly
the values in the left-open interval (0, 0.001]. -/
theorem C5_zero_bucket_amended :
    emission_range 0 = none
    ∧ ∀ v : ℚ, emission_range v = some "Zero" ↔ 0 < v ∧ v ≤ 1 / 1000 := by
  constructor
  · norm_num [emission_range]
  · intro v
    constructor
    · intro h
      by_contra hc
      rw [emission_range, if_neg hc] at h
      split_ifs at h <;> simp_all
    · intro h
      rw [emission_range, if_pos h]

/-- Witness for C5 amended: 0.0005 is labeled "Zero". -/
theorem C5_zero_bucket_amended_witness :
    emission_range (1 / 2000) = some "Zero" :=
  (C5_zero_bucket_amended.2 (1 / 2000)).2 (by norm_num)

/-- C10: in Job C's savings bucketing, "Negative" covers exactly the
savings ≤ -0.001, and every savings value strictly between -0.001 and 0
is labeled "Zero". -/
theorem C10_negative_bucket :
    (∀ v : ℚ, savings_range v = some "Negative" ↔ v ≤ -1 / 1000)
    ∧ (∀ v : ℚ, -1 / 1000 < v → v < 0 → savings_range v = some "Zero") := by
  constructor
  · intro v
    constructor
    · intro h
      by_contra hc
      rw [savings_range, if_neg hc] at h
      split_ifs at h <;> simp_all
    · intro h
      rw [savings_range, if_pos h]
  · intro v h1 h2
    rw [savings_range, if_neg (by linarith), if_pos ⟨h1, by linarith⟩]

/-- Witness for C10 at -0.001 (Negative) and -0.0005 (Zero). -/
theorem C10_negative_bucket_witness :
    savings_range (-1 / 1000) = some "Negative"
    ∧ savings_range (-1 / 2000) = some "Zero" :=
  ⟨(C10_negative_bucket.1 (-1 / 1000)).2 (by norm_num),
   C10_negative_bucket.2 (-1 / 2000) (by norm_num) (by norm_num)⟩

/-- C6: the entry guards of `anc_after_jit.py` and `anc_before_jit.py`
compare the unbound identifier `name` (not `__name__`) with "__main__",
so module execution raises NameError and `main` (resp.
`load_and_analyze_data`) is never invoked from the script entry point,
whether or not the module runs as the entry script. -/
theorem C6_entry_guard_raises_name_error :
    (∀ runAsScript : Bool,
      runEntryGuard globals_anc_after_jit entryGuardIdent runAsScript
        = EntryOutcome.raisedNameError)
    ∧ (∀ runAsScript : Bool,
      runEntryGuard globals_anc_before_jit entryGuardIdent runAsScript
        = EntryOutcome.raisedNameError) := by
  constructor <;> intro b <;> rfl

/-- C8: any exception inside `calculate_duration`'s try block is caught,
the duration column is set to 1 hour for every record, and the table is
returned to the caller instead of the error propagating. -/
theorem C8_duration_error_fallback (t : AisTable) (e : String)
    (herr : computeDurationsCore t = Except.error e) :
    calculate_duration t = t.rows.map (fun r => (r, 1)) := by
  unfold calculate_duration
  rw [herr]

/-- Witness for C8: a non-datetimelike timestamp column makes the try
block raise; the returned table carries a 1-hour duration for its row. -/
theorem C8_duration_error_fallback_witness :
    calculate_duration exampleBadTable
      = [(⟨"A", some 7200, none, none, "HFO"⟩, 1)] :=
  C8_duration_error_fallback exampleBadTable
    "Can only use .dt accessor with datetimelike values" rfl

theorem matchRows_of_no_match (after : List (String × ℚ)) (b : String × ℚ)
    (h : ∀ p ∈ after, p.1 ≠ b.1) :
    matchRows after b = [(b.1, some b.2, none)] := by
  unfold matchRows
  have hfil : after.filter (fun a => a.1 = b.1) = [] := by
    refine List.filter_eq_nil_iff.2 ?_
    intro a ha
    simp [h a ha]
  rw [hfil]
  rfl

/-- C2: every output row of Job C satisfies
`anc_savings_after_jit = anc_before_jit - anc_after_jit` exactly (missing
sides zero-filled before subtraction); in particular a vessel present only
in the before table appears with `anc_after_jit = 0` and
`anc_savings_after_jit = anc_before_jit`. -/
theorem C2_savings_subtraction (before after : List (String × ℚ)) :
    (∀ row ∈ calculate_emission_savings before after,
      row.anc_savings_after_jit = row.anc_before_jit - row.anc_after_jit)
    ∧ (∀ (i : String) (b : ℚ), (i, b) ∈ before →
        (∀ p ∈ after, p.1 ≠ i) →
        (⟨i, b, 0, b⟩ : SavingsRow) ∈ calculate_emission_savings before after) := by
  constructor
  · intro row hrow
    unfold calculate_emission_savings sortSavings at hrow
    rw [List.mem_mergeSort] at hrow
    rcases List.mem_map.1 hrow with ⟨j, _, rfl⟩
    rfl
  · intro i b hib hnone
    unfold calculate_emission_savings sortSavings
    rw [List.mem_mergeSort]
    have hjoin : (i, some b, (none : Option ℚ)) ∈ outerJoin before after := by
      unfold outerJoin
      refine List.mem_append_left _ ?_
      refine List.mem_flatMap.2 ⟨(i, b), hib, ?_⟩
      rw [matchRows_of_no_match after (i, b) hnone]
      exact List.mem_cons_self _ _
    refine List.mem_map.2 ⟨(i, some b, none), hjoin, ?_⟩
    show (⟨i, b, 0, b - 0⟩ : SavingsRow) = ⟨i, b, 0, b⟩
    rw [sub_zero]

/-- Witness for C2: vessel "A" appears only in the before table with
value 5 and comes out as the row (A, 5, 0, 5). -/
theorem C2_savings_subtraction_witness :
    (⟨"A", 5, 0, 5⟩ : SavingsRow) ∈ calculate_emission_savings [("A", 5)] []
    ∧ (⟨"A", 5, 0, 5⟩ : SavingsRow).anc_savings_after_jit
        = (⟨"A", 5, 0, 5⟩ : SavingsRow).anc_before_jit
          - (⟨"A", 5, 0, 5⟩ : SavingsRow).anc_after_jit := by
  have h := C2_savings_subtraction [("A", 5)] []
  have hm := h.2 "A" 5 (by simp) (by simp)
  exact ⟨hm, h.1 _ hm⟩

theorem calculate_duration_cases (t : AisTable) :
    calculate_duration t = assignDurations none (sortRows t.rows)
    ∨ calculate_duration t = t.rows.map (fun r => (r, cap24 1))
    ∨ calculate_duration t = t.rows.map (fun r => (r, 1)) := by
  unfold calculate_duration computeDurationsCore
  by_cases h1 : t.hasTimestampColumn = true <;>
    by_cases h2 : t.timestampIsDatetime = true <;>
      simp [h1, h2]

/-- C4: every derived raw duration is at most 24 hours, the JIT-capped
duration used in Job B is at most 3 hours, and the duration is exactly 1
hour for the first record of each vessel (no predecessor, or a
predecessor of a different IMO), for any record whose timestamp is NaT,
and for every record when the duration derivation fails. -/
theorem C4_duration_bounds (t : AisTable) :
    (∀ q ∈ calculate_duration t, q.2 ≤ 24 ∧ (q.1.timestamp = none → q.2 = 1))
    ∧ (∀ r : MergedRecord, jit_activity_duration_hours r ≤ 3)
    ∧ (∀ r : AisRecord, durationOf none r = 1)
    ∧ (∀ p r : AisRecord, p.imo ≠ r.imo → durationOf (some p) r = 1)
    ∧ (∀ e : String, computeDurationsCore t = Except.error e →
        ∀ q ∈ calculate_duration t, q.2 = 1) := by
  refine ⟨?_, ?_, durationOf_none, durationOf_new_imo, ?_⟩
  · intro q hq
    rcases calculate_duration_cases t with h | h | h <;> rw [h] at hq
    · exact assignDurations_bounds _ none q hq
    · rcases List.mem_map.1 hq with ⟨r, _, rfl⟩
      exact ⟨by rw [cap24_one]; norm_num, fun _ => cap24_one⟩
    · rcases List.mem_map.1 hq with ⟨r, _, rfl⟩
      exact ⟨by norm_num, fun _ => rfl⟩
  · intro r
    exact min_le_right _ _
  · intro e herr q hq
    unfold calculate_duration at hq
    rw [herr] at hq
    rcases List.mem_map.1 hq with ⟨r, _, rfl⟩
    rfl

/-- Witness for C4: a record whose predecessor belongs to another vessel
gets duration 1; on the table whose try block raises, the surviving row's
duration is 1 and is at most 24. -/
theorem C4_duration_bounds_witness :
    durationOf (some ⟨"A", some 0, none, none, "HFO"⟩)
        ⟨"B", some 3600, none, none, "HFO"⟩ = 1
    ∧ ((⟨"A", some 7200, none, none, "HFO"⟩ : AisRecord), (1 : ℚ)).2 = 1
    ∧ ((⟨"A", some 7200, none, none, "HFO"⟩ : AisRecord), (1 : ℚ)).2 ≤ 24 := by
  have h := C4_duration_bounds exampleBadTable
  have hmem : ((⟨"A", some 7200, none, none, "HFO"⟩ : AisRecord), (1 : ℚ))
      ∈ calculate_duration exampleBadTable :=
    List.mem_cons_self _ _
  exact ⟨h.2.2.2.1 _ _ (by decide), h.2.2.2.2 _ rfl _ hmem, (h.1 _ hmem).1⟩

theorem jit_duration_nonneg (r : MergedRecord)
    (h : 0 ≤ r.activity_duration_hours) :
    0 ≤ jit_activity_duration_hours r :=
  le_min h (by norm_num)

theorem aux_emissions_nonneg (r : MergedRecord) (h : nonnegRecord r) :
    0 ≤ aux_emissions_after_jit r := by
  rcases h with ⟨hd, hael, _, hsae, _⟩
  unfold aux_emissions_after_jit
  rcases hae : r.ael with _ | a
  · simp
  · rcases hsw : r.sfc_ae with _ | s
    · simp
    · have ha := hael a hae
      have hs := hsae s hsw
      have hj := jit_duration_nonneg r hd
      positivity

theorem boiler_emissions_nonneg (r : MergedRecord) (h : nonnegRecord r) :
    0 ≤ boiler_emissions_after_jit r := by
  rcases h with ⟨hd, _, habl, _, hsab⟩
  unfold boiler_emissions_after_jit
  rcases hae : r.abl with _ | b
  · simp
  · rcases hsw : r.sfc_ab with _ | s
    · simp
    · have ha := habl b hae
      have hs := hsab s hsw
      have hj := jit_duration_nonneg r hd
      positivity

theorem tonnes_nonneg (r : MergedRecord) (h : nonnegRecord r) :
    0 ≤ total_emissions_tonnes_after_jit r := by
  unfold total_emissions_tonnes_after_jit total_emissions_grams_after_jit
  have := aux_emissions_nonneg r h
  have := boiler_emissions_nonneg r h
  positivity

theorem emissions_by_imo_nonneg (rows : List MergedRecord)
    (h : ∀ r ∈ rows, nonnegRecord r) :
    ∀ p ∈ emissions_by_imo rows, 0 ≤ p.2 := by
  intro p hp
  unfold emissions_by_imo at hp
  rcases List.mem_map.1 hp with ⟨i, _, rfl⟩
  refine List.sum_nonneg ?_
  intro x hx
  rcases List.mem_map.1 hx with ⟨r, hr, rfl⟩
  exact tonnes_nonneg r (h r (List.mem_of_mem_filter hr))

/-- C7: with non-negative loads, factors and duration, the per-record
auxiliary, boiler and total emissions are ≥ 0; consequently every
per-vessel aggregate emission value of Job B, and of Job A on a
non-negative input table, is ≥ 0; Job C writes savings out as exactly
`before - after`, never clamped, and they can indeed be negative. -/
theorem C7_emissions_nonneg_savings_unclamped :
    (∀ r : MergedRecord, nonnegRecord r →
      0 ≤ aux_emissions_after_jit r ∧ 0 ≤ boiler_emissions_after_jit r
      ∧ 0 ≤ total_emissions_grams_after_jit r
      ∧ 0 ≤ total_emissions_tonnes_after_jit r)
    ∧ (∀ (rows : List MergedRecord) (all_imos : List String),
      (∀ r ∈ rows, nonnegRecord r) →
      ∀ p ∈ aggregate_and_analyze_emissions rows all_imos, 0 ≤ p.2)
    ∧ (∀ table : List (String × ℚ), (∀ q ∈ table, 0 ≤ q.2) →
      ∀ p ∈ load_and_analyze_data table, 0 ≤ p.2)
    ∧ (∀ (before after : List (String × ℚ)),
      ∀ row ∈ calculate_emission_savings before after,
        row.anc_savings_after_jit = row.anc_before_jit - row.anc_after_jit)
    ∧ (∃ (before after : List (String × ℚ)) (row : SavingsRow),
        row ∈ calculate_emission_savings before after
        ∧ row.anc_savings_after_jit < 0) := by
  refine ⟨?_, ?_, ?_, ?_, ?_⟩
  · intro r h
    have ha := aux_emissions_nonneg r h
    have hb := boiler_emissions_nonneg r h
    exact ⟨ha, hb, add_nonneg ha hb, tonnes_nonneg r h⟩
  · intro rows all_imos h p hp
    unfold aggregate_and_analyze_emissions sortByKey at hp
    rw [List.mem_mergeSort] at hp
    rcases List.mem_map.1 hp with ⟨i, _, rfl⟩
    rcases hl : (emissions_by_imo rows).lookup i with _ | v
    · simp
    · have hv := lookup_eq_some_mem i v _ hl
      simpa [hl] using emissions_by_imo_nonneg rows h (i, v) hv
  · intro table h p hp
    unfold load_and_analyze_data sortByKey at hp
    rw [List.mem_mergeSort] at hp
    exact h p hp
  · intro before after row hrow
    unfold calculate_emission_savings sortSavings at hrow
    rw [List.mem_mergeSort] at hrow
    rcases List.mem_map.1 hrow with ⟨j, _, rfl⟩
    rfl
  · refine ⟨[("A", 0)], [("A", 1)], ⟨"A", 0, 1, -1⟩, ?_, by norm_num⟩
    unfold calculate_emission_savings sortSavings
    rw [List.mem_mergeSort]
    refine List.mem_map.2 ⟨("A", some 0, some 1), ?_, ?_⟩
    · unfold outerJoin
      refine List.mem_append_left _ ?_
      refine List.mem_flatMap.2 ⟨("A", 0), by simp, ?_⟩
      unfold matchRows
      simp
    · show (⟨"A", 0, 1, 0 - 1⟩ : SavingsRow) = ⟨"A", 0, 1, -1⟩
      norm_num

/-- Witness for C7 at the spec's example record (all inputs
non-negative). -/
theorem C7_emissions_nonneg_savings_unclamped_witness :
    0 ≤ aux_emissions_after_jit exampleRecord
    ∧ 0 ≤ total_emissions_tonnes_after_jit exampleRecord := by
  have hn : nonnegRecord exampleRecord := by
    refine ⟨by norm_num [exampleRecord], ?_, ?_, ?_, ?_⟩ <;>
      (intro x hx
       simp [exampleRecord] at hx
       subst hx
       norm_num)
  have h := C7_emissions_nonneg_savings_unclamped.1 exampleRecord hn
  exact ⟨h.1, h.2.2.2⟩

theorem countP_keyf_eq_zero {α : Type} (key : α → String) (k : String)
    (l : List α) (h : k ∉ l.map key) :
    l.countP (fun x => key x = k) = 0 := by
  refine List.countP_eq_zero.2 ?_
  intro a ha hpa
  have hk : key a = k := of_decide_eq_true hpa
  exact h (hk ▸ List.mem_map_of_mem key ha)

theorem countP_keyf_eq_one {α : Type} (key : α → String) (k : String) :
    ∀ l : List α, (l.map key).Nodup → k ∈ l.map key →
      l.countP (fun x => key x = k) = 1 := by
  intro l
  induction l with
  | nil => intro _ h; cases h
  | cons x xs ih =>
    intro hnd hmem
    rw [List.map_cons, List.nodup_cons] at hnd
    rw [List.map_cons] at hmem
    rw [List.countP_cons]
    rcases List.mem_cons.1 hmem with h | h
    · have hz : xs.countP (fun y => key y = k) = 0 :=
        countP_keyf_eq_zero key k xs (by rw [h]; exact hnd.1)
      rw [hz, if_pos (decide_eq_true h.symm)]
    · have hx : ¬ (key x = k) := fun e => hnd.1 (e ▸ h)
      rw [ih hnd.2 h, if_neg (by simpa using hx)]

theorem countP_str_eq_one (k : String) (l : List String) (hnd : l.Nodup)
    (hm : k ∈ l) : l.countP (fun x => x = k) = 1 :=
  countP_keyf_eq_one (fun s => s) k l (by simpa using hnd) (by simpa using hm)

theorem countP_str_eq_zero (k : String) (l : List String) (hm : k ∉ l) :
    l.countP (fun x => x = k) = 0 :=
  countP_keyf_eq_zero (fun s => s) k l (by simpa using hm)

theorem countP_matchRows (after : List (String × ℚ))
    (ha : (after.map Prod.fst).Nodup) (b : String × ℚ) (i : String) :
    (matchRows after b).countP (fun j => j.1 = i)
      = if b.1 = i then 1 else 0 := by
  unfold matchRows
  by_cases hemp : (after.filter (fun a => a.1 = b.1)).isEmpty = true
  · rw [if_pos hemp]
    simp [List.countP_cons]
  · rw [if_neg hemp, List.countP_map]
    have hcomp : ((fun j : String × Option ℚ × Option ℚ => decide (j.1 = i)) ∘
        (fun a : String × ℚ => (b.1, some b.2, some a.2)))
        = fun _ : String × ℚ => decide (b.1 = i) := rfl
    rw [hcomp]
    by_cases hbi : b.1 = i
    · rw [if_pos hbi]
      have hlen : (after.filter (fun a => a.1 = b.1)).countP
          (fun _ : String × ℚ => decide (b.1 = i))
          = (after.filter (fun a => a.1 = b.1)).length := by
        simp [hbi]
      rw [hlen, ← List.countP_eq_length_filter]
      have hne : after.filter (fun a => a.1 = b.1) ≠ [] := by
        intro hc
        rw [hc] at hemp
        exact hemp rfl
      rcases List.exists_mem_of_ne_nil _ hne with ⟨x, hx⟩
      rcases List.mem_filter.1 hx with ⟨hxa, hxb⟩
      have hxk : x.1 = b.1 := of_decide_eq_true hxb
      exact countP_keyf_eq_one Prod.fst b.1 after ha
        (hxk ▸ List.mem_map_of_mem Prod.fst hxa)
    · rw [if_neg hbi]
      simp [hbi]

theorem countP_leftJoin (after : List (String × ℚ))
    (ha : (after.map Prod.fst).Nodup) (i : String) :
    ∀ before : List (String × ℚ), (before.map Prod.fst).Nodup →
      (before.flatMap (matchRows after)).countP (fun j => j.1 = i)
        = if i ∈ before.map Prod.fst then 1 else 0 := by
  intro before
  induction before with
  | nil => intro _; simp
  | cons b bs ih =>
    intro hnd
    rw [List.map_cons, List.nodup_cons] at hnd
    rw [List.flatMap_cons, List.countP_append,
      countP_matchRows after ha b i, ih hnd.2]
    by_cases hbi : b.1 = i
    · have hni : i ∉ bs.map Prod.fst := hbi ▸ hnd.1
      rw [if_pos hbi, if_neg hni,
        if_pos (by rw [List.map_cons]; exact List.mem_cons.2 (Or.inl hbi.symm))]
    · rw [if_neg hbi, zero_add]
      have hiff : (i ∈ (b :: bs).map Prod.fst) ↔ (i ∈ bs.map Prod.fst) := by
        rw [List.map_cons, List.mem_cons]
        constructor
        · rintro (h | h)
          · exact absurd h.symm hbi
          · exact h
        · exact Or.inr
      by_cases hm : i ∈ bs.map Prod.fst
      · rw [if_pos hm, if_pos (hiff.2 hm)]
      · rw [if_neg hm, if_neg (fun hc => hm (hiff.1 hc))]

theorem countP_rightJoin (before after : List (String × ℚ))
    (ha : (after.map Prod.fst).Nodup) (i : String) :
    ((after.filter (fun a => ¬ before.any (fun b => b.1 = a.1))).map
        (fun a => (a.1, (none : Option ℚ), some a.2))).countP
      (fun j => j.1 = i)
      = if i ∈ after.map Prod.fst ∧ i ∉ before.map Prod.fst then 1 else 0 := by
  rw [List.countP_map]
  have hcomp : ((fun j : String × Option ℚ × Option ℚ => decide (j.1 = i)) ∘
      (fun a : String × ℚ => (a.1, (none : Option ℚ), some a.2)))
      = fun a : String × ℚ => decide (a.1 = i) := rfl
  rw [hcomp, List.countP_filter]
  simp only [decide_not, Bool.decide_eq_true]
  by_cases hib : i ∈ before.map Prod.fst
  · rw [if_neg (fun hc => hc.2 hib)]
    refine List.countP_eq_zero.2 ?_
    intro a _ hpa
    rw [Bool.and_eq_true] at hpa
    have hai : a.1 = i := of_decide_eq_true hpa.1
    rcases List.mem_map.1 hib with ⟨bb, hbb, hbbi⟩
    have hany : before.any (fun b => b.1 = a.1) = true :=
      List.any_eq_true.2 ⟨bb, hbb, decide_eq_true (by rw [hbbi, hai])⟩
    rw [hany] at hpa
    exact absurd hpa.2 (by simp)
  · have hcong : ∀ a ∈ after,
        ((decide (a.1 = i) && !(before.any (fun b => b.1 = a.1))) = true)
        ↔ (decide (a.1 = i) = true) := by
      intro a _
      constructor
      · intro h
        rw [Bool.and_eq_true] at h
        exact h.1
      · intro h
        rw [Bool.and_eq_true]
        refine ⟨h, ?_⟩
        by_cases hany : before.any (fun b => b.1 = a.1) = true
        · rcases List.any_eq_true.1 hany with ⟨bb, hbb, hbbi⟩
          have hbi : bb.1 = i := by
            rw [of_decide_eq_true hbbi, of_decide_eq_true h]
          exact absurd (List.mem_map.2 ⟨bb, hbb, hbi⟩) hib
        · rw [Bool.not_eq_true] at hany
          rw [hany]
          rfl
    rw [List.countP_congr hcong]
    by_cases hia : i ∈ after.map Prod.fst
    · rw [if_pos ⟨hia, hib⟩]
      exact countP_keyf_eq_one Prod.fst i after ha hia
    · rw [if_neg (fun hc => hia hc.1)]
      exact countP_keyf_eq_zero Prod.fst i after hia

theorem countP_outerJoin (before after : List (String × ℚ)) (i : String)
    (hb : (before.map Prod.fst).Nodup) (ha : (after.map Prod.fst).Nodup) :
    (outerJoin before after).countP (fun j => j.1 = i)
      = if i ∈ before.map Prod.fst ∨ i ∈ after.map Prod.fst then 1 else 0 := by
  unfold outerJoin
  rw [List.countP_append, countP_leftJoin after ha i before hb,
    countP_rightJoin before after ha i]
  by_cases hib : i ∈ before.map Prod.fst
  · rw [if_pos hib, if_neg (fun hc => hc.2 hib), if_pos (Or.inl hib)]
  · rw [if_neg hib, Nat.zero_add]
    by_cases hia : i ∈ after.map Prod.fst
    · rw [if_pos ⟨hia, hib⟩, if_pos (Or.inr hia)]
    · rw [if_neg (fun hc => hia hc.1),
        if_neg (by rintro (h | h); exacts [hib h, hia h])]

theorem countP_savings (before after : List (String × ℚ)) (i : String)
    (hb : (before.map Prod.fst).Nodup) (ha : (after.map Prod.fst).Nodup) :
    (calculate_emission_savings before after).countP (fun row => row.imo = i)
      = if i ∈ before.map Prod.fst ∨ i ∈ after.map Prod.fst then 1 else 0 := by
  unfold calculate_emission_savings sortSavings
  rw [List.Perm.countP_eq _ (List.mergeSort_perm _ _), List.countP_map]
  have hcomp : ((fun row : SavingsRow => decide (row.imo = i)) ∘
      (fun j : String × Option ℚ × Option ℚ =>
        let b := j.2.1.getD 0
        let a := j.2.2.getD 0
        (⟨j.1, b, a, b - a⟩ : SavingsRow)))
      = fun j : String × Option ℚ × Option ℚ => decide (j.1 = i) := rfl
  rw [hcomp]
  exact countP_outerJoin before after i hb ha

theorem countP_aggregate (rows : List MergedRecord) (all_imos : List String)
    (hnd : all_imos.Nodup) (i : String) :
    (aggregate_and_analyze_emissions rows all_imos).countP (fun p => p.1 = i)
      = if i ∈ all_imos then 1 else 0 := by
  unfold aggregate_and_analyze_emissions sortByKey
  rw [List.Perm.countP_eq _ (List.mergeSort_perm _ _), List.countP_map]
  have hcomp : ((fun p : String × ℚ => decide (p.1 = i)) ∘
      (fun j : String => (j, ((emissions_by_imo rows).lookup j).getD 0)))
      = fun j : String => decide (j = i) := rfl
  rw [hcomp]
  by_cases him : i ∈ all_imos
  · rw [if_pos him]
    exact countP_str_eq_one i all_imos hnd him
  · rw [if_neg him]
    exact countP_str_eq_zero i all_imos him

theorem aggregate_zero_fill (rows : List MergedRecord)
    (all_imos : List String) (i : String) (him : i ∈ all_imos)
    (hno : ∀ r ∈ rows, r.imo ≠ i) :
    (i, (0 : ℚ)) ∈ aggregate_and_analyze_emissions rows all_imos := by
  unfold aggregate_and_analyze_emissions sortByKey
  rw [List.mem_mergeSort]
  refine List.mem_map.2 ⟨i, him, ?_⟩
  have hkeys : i ∉ (emissions_by_imo rows).map Prod.fst := by
    intro hc
    unfold emissions_by_imo at hc
    rcases List.mem_map.1 hc with ⟨p, hp, hpe⟩
    rcases List.mem_map.1 hp with ⟨j, hj, rfl⟩
    have hji : j = i := hpe
    subst hji
    rw [List.mem_mergeSort] at hj
    rcases List.mem_map.1 ((mem_uniqueFirst j _).1 hj) with ⟨r, hr, hri⟩
    exact hno r hr hri
  show (i, ((emissions_by_imo rows).lookup i).getD 0) = (i, 0)
  rw [lookup_eq_none_of_not_mem i _ hkeys]
  rfl

/-- C3: in Job B the aggregate has exactly one row per identifier of
`all_imos` (which collects every IMO observed in the AIS input, without
duplicates) and an identifier with no matching activity comes out with
emissions 0; in Job C the outer-joined savings table has (given unique
keys on each input aggregate) exactly one row per identifier present in
either input and none for any other identifier. -/
theorem C3_aggregate_row_uniqueness :
    (∀ (rows : List MergedRecord) (all_imos : List String) (i : String),
      all_imos.Nodup →
      (aggregate_and_analyze_emissions rows all_imos).countP (fun p => p.1 = i)
        = if i ∈ all_imos then 1 else 0)
    ∧ (∀ (rows : List MergedRecord) (all_imos : List String) (i : String),
      i ∈ all_imos → (∀ r ∈ rows, r.imo ≠ i) →
      (i, (0 : ℚ)) ∈ aggregate_and_analyze_emissions rows all_imos)
    ∧ (∀ l : List String,
      (uniqueFirst l).Nodup ∧ ∀ i : String, i ∈ uniqueFirst l ↔ i ∈ l)
    ∧ (∀ (before after : List (String × ℚ)) (i : String),
      (before.map Prod.fst).Nodup → (after.map Prod.fst).Nodup →
      (calculate_emission_savings before after).countP (fun row => row.imo = i)
        = if i ∈ before.map Prod.fst ∨ i ∈ after.map Prod.fst then 1 else 0) := by
  refine ⟨?_, aggregate_zero_fill, ?_, ?_⟩
  · intro rows all_imos i hnd
    exact countP_aggregate rows all_imos hnd i
  · intro l
    exact ⟨nodup_uniqueFirst l, fun i => mem_uniqueFirst i l⟩
  · intro before after i hb ha
    exact countP_savings before after i hb ha

/-- Witness for C3: with one AIS vessel "B" and universe ["A", "B"], the
aggregate has exactly one "A" row, carrying 0; Job C on `[("A", 5)]` and
`[("B", 3)]` has exactly one row for "A" and exactly one for "B". -/
theorem C3_aggregate_row_uniqueness_witness :
    (aggregate_and_analyze_emissions [] ["A", "B"]).countP
        (fun p => p.1 = "A") = 1
    ∧ ("A", (0 : ℚ)) ∈ aggregate_and_analyze_emissions [] ["A", "B"]
    ∧ (uniqueFirst ["A", "B", "A"]).Nodup
    ∧ (calculate_emission_savings [("A", 5)] [("B", 3)]).countP
        (fun row => row.imo = "B") = 1 := by
  have h := C3_aggregate_row_uniqueness
  refine ⟨?_, ?_, ?_, ?_⟩
  · have := h.1 [] ["A", "B"] "A" (by simp)
    simpa using this
  · exact h.2.1 [] ["A", "B"] "A" (by simp) (by intro r hr; cases hr)
  · exact (h.2.2.1 ["A", "B", "A"]).1
  · have := h.2.2.2 [("A", 5)] [("B", 3)] "B" (by simp) (by simp)
    simpa using this

end Hackathon
